import Mathlib

/-!
Shallow embedding of the fwup action layer (`src/functions.c`): the action
run/compute_progress functions, the funlist interpreter, and the pieces of the
sparse-file and FAT interfaces they consume.  Machine integers that the C code
keeps in `off_t`/`size_t` are modelled as `Nat` (all quantities involved are
non-negative and no overflow is reachable in the claims checked here); C return
codes become `Except FunError Unit` except where the exact integer value of the
return code is itself the property under study (`fat_attrib_run`,
`fun_apply_funlist`), where `Int` is kept.  The BLAKE2b-256 digest routine from
libsodium is external to the repository; it is modelled as an explicit function
parameter `hfn : List Nat → String` standing for
`bytes_to_hex (crypto_generichash (concatenated bytes))`, so every statement
about hash checking is about the control flow of the repository's code, not
about BLAKE2b internals.
-/

set_option autoImplicit false

namespace Fwup

/-- Error identities for the `ERR_*` / `set_last_error` failure paths of
`src/functions.c` that the claims distinguish. -/
inductive FunError where
  | noResource
  | invalidHash
  | wroteNothing
  | wrongLength
  | hashMismatch
  | requiresUnsafe
  | cantOpen
  | cantRun
  | writeFailed
  | fatError
  deriving DecidableEq, Repr

/-- Progress accumulator (`struct progress`): `total_units` is filled by the
compute_progress pass, `current` by `progress_report` calls during run. -/
structure Progress where
  total_units : Nat
  current : Nat
  deriving DecidableEq, Repr

/-- `progress_report(progress, units)` adds `units` to the reported count. -/
def progress_report (prog : Progress) (units : Nat) : Progress :=
  { prog with current := prog.current + units }

/-- One chunk yielded by `fctx->read`: destination offset within the resource
plus the data bytes. -/
structure Chunk where
  offset : Nat
  data : List Nat
  deriving DecidableEq, Repr

/-- Total data bytes carried by a chunk list. -/
def chunksLen (s : List Chunk) : Nat :=
  (s.map (fun c => c.data.length)).sum

/-- Concatenation of the data of a chunk list, i.e. the byte sequence the
incremental hash state sees. -/
def chunksBytes (s : List Chunk) : List Nat :=
  (s.map (fun c => c.data)).flatten

/-- Writes against the output block device, as issued through the block cache
(`block_cache_pwrite`, `block_cache_trim`); the pad-to-block writer is
abstracted to the byte writes it forwards. -/
inductive DevOp where
  | pwrite (offset : Nat) (data : List Nat) (streamed : Bool)
  | trim (offset : Nat) (count : Nat) (hard : Bool)
  deriving DecidableEq, Repr

/-- Host-side effects of the unsafe actions: opening a host file, spawning a
subprocess, writing to a file descriptor, emitting a diagnostic
(`fwup_warnx`). -/
inductive HostOp where
  | openFile (path : String)
  | spawn (cmd : String)
  | fdWrite (fd : Int) (data : List Nat)
  | warn (data : List Nat)
  deriving DecidableEq, Repr

/-- Modelled from the spec: `sparse_file_data_size` of `sparse_file.c` (not
under `src/`); per spec the map is a run-length list beginning with data, and
`data_size` is the sum of the even-indexed (data) runs. -/
def sparse_file_data_size : List Nat → Nat
  | [] => 0
  | [d] => d
  | d :: _ :: rest => d + sparse_file_data_size rest

/-- Modelled from the spec: `sparse_file_size` of `sparse_file.c` (not under
`src/`); the total size is the sum of all runs. -/
def sparse_file_size (runs : List Nat) : Nat := runs.sum

/-- Modelled from the spec: `sparse_ending_hole_size` of `sparse_file.c` (not
under `src/`); the ending hole is the final run when the run list ends on a
hole (odd index, i.e. even list length), and 0 otherwise. -/
def sparse_ending_hole_size (runs : List Nat) : Nat :=
  if runs.length % 2 = 0 then runs.getLastD 0 else 0

/-- A `file-resource` section as the run functions read it: the section title,
the `blake2b-256` option (absent when the config lacks it) and the sparse run
map of the payload. -/
structure Resource where
  title : String
  hash? : Option String
  runs : List Nat
  deriving DecidableEq, Repr

/-- The check `!expected_hash || strlen(expected_hash) != crypto_generichash_BYTES * 2`
performed by every data-carrying run function, as a predicate on the config
option (`crypto_generichash_BYTES * 2 = 64`). -/
def validHash : Option String → Bool
  | none => false
  | some h => h.length == 64

deriving instance DecidableEq for Except

/-- Result of a FILE-context run function writing through the block cache:
device writes issued, final progress, unconsumed remainder of the (single-pass)
resource stream, and the C return code. -/
structure BlockRunOut where
  ops : List DevOp
  prog : Progress
  leftover : List Chunk
  rc : Except FunError Unit
  deriving DecidableEq, Repr

/-- The `for (;;) { fctx->read(...) ... }` pump of `raw_write_run`: writes each
chunk at `dest_offset + offset` through the pad-to-block writer, accumulating
the hashed bytes and `len_written`; a zero-length read terminates the loop. -/
def raw_write_pump (dest_offset : Nat) : List Chunk → List DevOp × Nat × List Nat × List Chunk
  | [] => ([], 0, [], [])
  | c :: rest =>
    if c.data.length = 0 then ([], 0, [], rest)
    else
      let r := raw_write_pump dest_offset rest
      (DevOp.pwrite (dest_offset + c.offset) c.data true :: r.1,
       c.data.length + r.2.1, c.data ++ r.2.2.1, r.2.2.2)

/-- `raw_write_run` (`src/functions.c:254`): look up the resource, demand a
64-character `blake2b-256` string, pump the stream into the output at
`block_offset * 512`, cap a trailing hole with a zero block, then check the
byte count against `data_size` and the digest against the stored hash. -/
def raw_write_run (hfn : List Nat → String) (res? : Option Resource) (block_offset : Nat)
    (stream : List Chunk) (prog : Progress) : BlockRunOut :=
  match res? with
  | none => ⟨[], prog, stream, .error .noResource⟩
  | some res =>
    match res.hash? with
    | none => ⟨[], prog, stream, .error .invalidHash⟩
    | some expected_hash =>
      if expected_hash.length ≠ 64 then ⟨[], prog, stream, .error .invalidHash⟩
      else
        let expected_length := sparse_file_data_size res.runs
        let dest_offset := block_offset * 512
        let p := raw_write_pump dest_offset stream
        let len_written := p.2.1
        let prog2 := progress_report prog len_written
        let ending_hole := sparse_ending_hole_size res.runs
        let holeOps :=
          if ending_hole > 0 then
            [DevOp.pwrite (dest_offset + (sparse_file_size res.runs - min 512 ending_hole))
              (List.replicate (min 512 ending_hole) 0) true]
          else []
        let ops := p.1 ++ holeOps
        if len_written ≠ expected_length then
          if len_written = 0 then ⟨ops, prog2, p.2.2.2, .error .wroteNothing⟩
          else ⟨ops, prog2, p.2.2.2, .error .wrongLength⟩
        else if hfn p.2.2.1 ≠ expected_hash then ⟨ops, prog2, p.2.2.2, .error .hashMismatch⟩
        else ⟨ops, prog2, p.2.2.2, .ok ()⟩

/-- On a stream whose chunks are all non-empty (the only shape the resource
stream produces before EOF), the pump writes every chunk in order, pulls every
byte, hashes the concatenation and leaves nothing over. -/
theorem raw_write_pump_eq (dest_offset : Nat) (s : List Chunk)
    (hwf : ∀ c ∈ s, c.data ≠ []) :
    raw_write_pump dest_offset s =
      (s.map (fun c => DevOp.pwrite (dest_offset + c.offset) c.data true),
       chunksLen s, chunksBytes s, []) := by
  induction s with
  | nil => simp [raw_write_pump, chunksLen, chunksBytes]
  | cons c rest ih =>
    have hc : c.data ≠ [] := hwf c (List.mem_cons_self c rest)
    have hrest : ∀ x ∈ rest, x.data ≠ [] := fun x hx => hwf x (List.mem_cons_of_mem c hx)
    have hlen : c.data.length ≠ 0 := by
      simpa [List.length_eq_zero] using hc
    simp [raw_write_pump, hlen, ih hrest, chunksLen, chunksBytes]

/-- A mounted FAT volume's directory, as the FAT façade exposes it to the
actions: file name to file content. -/
abbrev FatState := List (String × List Nat)

/-- Whether `path` names an existing file of the volume. -/
def fatHas (fat : FatState) (path : String) : Bool :=
  fat.any (fun e => e.1 == path)

/-- Modelled from the spec: `fatfs_rm` of `fatfs.c` (not under `src/`); delete
the file; per spec §4.1 the plain variant tolerates a missing file while the
`!` variant (`file_must_exist`) requires it to exist. -/
def fatfs_rm (fat : FatState) (path : String) (file_must_exist : Bool) :
    Except FunError FatState :=
  if fatHas fat path then .ok (fat.filter (fun e => e.1 != path))
  else if file_must_exist then .error .fatError
  else .ok fat

/-- Modelled from the spec: `fatfs_touch` of `fatfs.c` (not under `src/`);
create an empty file if absent. -/
def fatfs_touch (fat : FatState) (path : String) : FatState :=
  if fatHas fat path then fat else (path, []) :: fat

/-- Content after writing `data` at byte offset `off`, zero-filling any gap and
growing the file as needed (spec §4.7/§4.2: writes grow the file, holes read
back as zeros). -/
def fatWriteAt (content : List Nat) (off : Nat) (data : List Nat) : List Nat :=
  (List.range (max content.length (off + data.length))).map (fun i =>
    if off ≤ i ∧ i < off + data.length then data.getD (i - off) 0
    else content.getD i 0)

/-- Modelled from the spec: `fatfs_pwrite` of `fatfs.c` (not under `src/`);
write into (or create) the named file at a byte offset; a zero-length write at
an offset grows the file to that length. -/
def fatfs_pwrite (fat : FatState) (path : String) (off : Nat) (data : List Nat) : FatState :=
  let old := match fat.find? (fun e => e.1 == path) with
    | some e => e.2
    | none => []
  (path, fatWriteAt old off data) :: fat.filter (fun e => e.1 != path)

/-- `fat_write_compute_progress` (`src/functions.c:458`): one progress unit per
data byte of the resource, with zero-length resources counted as one unit. -/
def fat_write_compute_progress (runs : List Nat) (prog : Progress) : Progress :=
  let expected_length := sparse_file_data_size runs
  let expected_length := if expected_length = 0 then 1 else expected_length
  { prog with total_units := prog.total_units + expected_length }

/-- Result of `fat_write_run`: the FAT volume state, final progress, leftover
stream and return code. -/
structure FatRunOut where
  fat : FatState
  prog : Progress
  leftover : List Chunk
  rc : Except FunError Unit
  deriving DecidableEq, Repr

/-- The streaming loop of `fat_write_run`: each chunk is hashed and written
into the destination file at its resource offset via `fatfs_pwrite`. -/
def fat_write_pump (dest : String) (fat : FatState) :
    List Chunk → FatState × Nat × List Nat × List Chunk
  | [] => (fat, 0, [], [])
  | c :: rest =>
    if c.data.length = 0 then (fat, 0, [], rest)
    else
      let r := fat_write_pump dest (fatfs_pwrite fat dest c.offset c.data) rest
      (r.1, c.data.length + r.2.1, c.data ++ r.2.2.1, r.2.2.2)

/-- Destination FAT state after streaming every chunk into `dest`, used to
state that `fat_write_run` delivers the whole stream before judging it. -/
def fatAfterChunks (dest : String) (fat : FatState) (s : List Chunk) : FatState :=
  s.foldl (fun f c => fatfs_pwrite f dest c.offset c.data) fat

/-- `fat_write_run` (`src/functions.c:478`): look up the resource and its
64-character hash, truncate by removing any existing destination file, then
either touch an empty file (zero-total-size resource: one progress unit, no
hash verification) or stream, grow a trailing hole, check the byte count
against `data_size` and the digest against the stored hash. -/
def fat_write_run (hfn : List Nat → String) (res? : Option Resource) (block_offset : Nat)
    (dest : String) (stream : List Chunk) (fat : FatState) (prog : Progress) : FatRunOut :=
  match res? with
  | none => ⟨fat, prog, stream, .error .noResource⟩
  | some res =>
    match res.hash? with
    | none => ⟨fat, prog, stream, .error .invalidHash⟩
    | some expected_hash =>
      if expected_hash.length ≠ 64 then ⟨fat, prog, stream, .error .invalidHash⟩
      else
        match fatfs_rm fat dest false with
        | .error e => ⟨fat, prog, stream, .error e⟩
        | .ok fat1 =>
          let expected_data_length := sparse_file_data_size res.runs
          let expected_length := sparse_file_size res.runs
          if expected_length = 0 then
            ⟨fatfs_touch fat1 dest, progress_report prog 1, stream, .ok ()⟩
          else
            let p := fat_write_pump dest fat1 stream
            let len_written := p.2.1
            let prog2 := progress_report prog len_written
            let fat2 :=
              if sparse_ending_hole_size res.runs ≠ 0 then
                fatfs_pwrite p.1 dest expected_length []
              else p.1
            if len_written ≠ expected_data_length then
              if len_written = 0 then ⟨fat2, prog2, p.2.2.2, .error .wroteNothing⟩
              else ⟨fat2, prog2, p.2.2.2, .error .wrongLength⟩
            else if hfn p.2.2.1 ≠ expected_hash then ⟨fat2, prog2, p.2.2.2, .error .hashMismatch⟩
            else ⟨fat2, prog2, p.2.2.2, .ok ()⟩

/-- The `fat_write` pump on a well-formed stream delivers every chunk (the fold
of `fatfs_pwrite`), pulls every byte, hashes the concatenation and leaves
nothing over. -/
theorem fat_write_pump_eq (dest : String) (fat : FatState) (s : List Chunk)
    (hwf : ∀ c ∈ s, c.data ≠ []) :
    fat_write_pump dest fat s = (fatAfterChunks dest fat s, chunksLen s, chunksBytes s, []) := by
  induction s generalizing fat with
  | nil => simp [fat_write_pump, fatAfterChunks, chunksLen, chunksBytes]
  | cons c rest ih =>
    have hc : c.data ≠ [] := hwf c (List.mem_cons_self c rest)
    have hrest : ∀ x ∈ rest, x.data ≠ [] := fun x hx => hwf x (List.mem_cons_of_mem c hx)
    have hlen : c.data.length ≠ 0 := by
      simpa [List.length_eq_zero] using hc
    simp [fat_write_pump, hlen, ih _ hrest, fatAfterChunks, chunksLen, chunksBytes]

/-- Result of the host-sink run functions (`path_write`, `pipe_write`,
`execute`'s relatives): host effects, final progress, leftover stream and
return code. -/
structure HostRunOut where
  ops : List HostOp
  prog : Progress
  leftover : List Chunk
  rc : Except FunError Unit
  deriving DecidableEq, Repr

/-- Intermediate state of the `fd_write_run` stream loop. -/
structure FdPumpOut where
  ops : List HostOp
  written : Int
  pulled : Nat
  bytes : List Nat
  leftover : List Chunk
  rc : Except FunError Unit
  deriving DecidableEq, Repr

/-- The stream loop of `fd_write_run`: hash the chunk, `write` it to the
descriptor via `writeFn` (the POSIX `write`, returning bytes written or a
negative error), abort on a negative return, and report the chunk length as
progress. -/
def fd_write_pump (writeFn : Int → List Nat → Int) (fd : Int) : List Chunk → FdPumpOut
  | [] => ⟨[], 0, 0, [], [], .ok ()⟩
  | c :: rest =>
    if c.data.length = 0 then ⟨[], 0, 0, [], rest, .ok ()⟩
    else
      let w := writeFn fd c.data
      if w < 0 then ⟨[HostOp.fdWrite fd c.data], 0, 0, c.data, rest, .error .writeFailed⟩
      else
        let r := fd_write_pump writeFn fd rest
        ⟨HostOp.fdWrite fd c.data :: r.ops, w + r.written, c.data.length + r.pulled,
         c.data ++ r.bytes, r.leftover, r.rc⟩

/-- `fd_write_run` (`src/functions.c:1010`), the sink shared by `path_write`
and `pipe_write`: look up the resource and its 64-character hash, pump the
stream into the descriptor, write up to one zero block into a trailing hole,
then verify the digest.  Mirroring the C code, no comparison of `len_written`
against `expected_length` is performed. -/
def fd_write_run (hfn : List Nat → String) (writeFn : Int → List Nat → Int)
    (cmd_name : String) (res? : Option Resource) (output_fd : Int)
    (stream : List Chunk) (prog : Progress) : HostRunOut :=
  match res? with
  | none => ⟨[], prog, stream, .error .noResource⟩
  | some res =>
    match res.hash? with
    | none => ⟨[], prog, stream, .error .invalidHash⟩
    | some expected_hash =>
      if expected_hash.length ≠ 64 then ⟨[], prog, stream, .error .invalidHash⟩
      else
        let p := fd_write_pump writeFn output_fd stream
        let prog2 := progress_report prog p.pulled
        match p.rc with
        | .error e => ⟨p.ops, prog2, p.leftover, .error e⟩
        | .ok _ =>
          let ending_hole := sparse_ending_hole_size res.runs
          if ending_hole > 0 then
            let zeros := List.replicate (min 512 ending_hole) 0
            let w := writeFn output_fd zeros
            let ops := p.ops ++ [HostOp.fdWrite output_fd zeros]
            if w < 0 then ⟨ops, prog2, p.leftover, .error .writeFailed⟩
            else if hfn p.bytes ≠ expected_hash then ⟨ops, prog2, p.leftover, .error .hashMismatch⟩
            else ⟨ops, prog2, p.leftover, .ok ()⟩
          else
            if hfn p.bytes ≠ expected_hash then ⟨p.ops, prog2, p.leftover, .error .hashMismatch⟩
            else ⟨p.ops, prog2, p.leftover, .ok ()⟩

/-- `path_write_run` (`src/functions.c:1084`): gate on the process-wide flag
`fwup_unsafe` (modelled as the argument `unlocked`), `open` the host path
(`openFn` models `open`, returning a descriptor or -1), treat descriptor 0 as
the only open failure (exactly as the C `if(!output_fd)` does), and delegate
to `fd_write_run`. -/
def path_write_run (hfn : List Nat → String) (writeFn : Int → List Nat → Int)
    (openFn : String → Int) (unlocked : Bool) (res? : Option Resource)
    (output_filename : String) (stream : List Chunk) (prog : Progress) : HostRunOut :=
  if !unlocked then ⟨[], prog, stream, .error .requiresUnsafe⟩
  else
    let output_fd := openFn output_filename
    if output_fd = 0 then ⟨[HostOp.openFile output_filename], prog, stream, .error .cantOpen⟩
    else
      let r := fd_write_run hfn writeFn ("path_write") res? output_fd stream prog
      ⟨HostOp.openFile output_filename :: r.ops, r.prog, r.leftover, r.rc⟩

/-- `pipe_write_run` (`src/functions.c:1123`): gate on `fwup_unsafe`, `popen`
the command (`popenFn` models `popen`+`fileno`: `none` for a failed spawn),
treat descriptor 0 as a failure, and delegate to `fd_write_run`. -/
def pipe_write_run (hfn : List Nat → String) (writeFn : Int → List Nat → Int)
    (popenFn : String → Option Int) (unlocked : Bool) (res? : Option Resource)
    (cmd : String) (stream : List Chunk) (prog : Progress) : HostRunOut :=
  if !unlocked then ⟨[], prog, stream, .error .requiresUnsafe⟩
  else
    match popenFn cmd with
    | none => ⟨[HostOp.spawn cmd], prog, stream, .error .cantRun⟩
    | some output_fd =>
      if output_fd = 0 then ⟨[HostOp.spawn cmd], prog, stream, .error .cantRun⟩
      else
        let r := fd_write_run hfn writeFn ("pipe_write") res? output_fd stream prog
        ⟨HostOp.spawn cmd :: r.ops, r.prog, r.leftover, r.rc⟩

/-- `fread(buffer, 512, 1, cmd_pipe)` on a byte stream: returns the number of
complete 512-byte items read (0 or 1), the bytes read, and the remaining
stream. -/
def fread512 (s : List Nat) : Nat × List Nat × List Nat :=
  if 512 ≤ s.length then (1, s.take 512, s.drop 512) else (0, [], s)

/-- The stdout-forwarding loop of `execute_run`, exactly as written:
`while(fread(buffer, 512, 1, cmd_pipe) == 512) fwup_warnx(buffer)`. -/
def execute_loop (s : List Nat) : List HostOp :=
  if h : (fread512 s).1 = 512 then
    HostOp.warn (fread512 s).2.1 :: execute_loop (fread512 s).2.2
  else []
termination_by s.length
decreasing_by
  exfalso
  simp only [fread512] at h
  split at h <;> omega

/-- `execute_run` (`src/functions.c:1162`): gate on `fwup_unsafe`, `popen` the
command for reading (`popenFn` yields the command's stdout bytes, `none` for a
failed spawn), then run the forwarding loop. -/
def execute_run (unlocked : Bool) (popenFn : String → Option (List Nat)) (cmd : String) :
    List HostOp × Except FunError Unit :=
  if !unlocked then ([], .error .requiresUnsafe)
  else
    match popenFn cmd with
    | none => ([HostOp.spawn cmd], .error .cantRun)
    | some out => (HostOp.spawn cmd :: execute_loop out, .ok ())

/-- `trim_run` (`src/functions.c:754`), exactly as written: both the byte
offset and the byte count handed to `block_cache_trim` are computed from
`block_offset` (`off_t count = block_offset * FWUP_BLOCK_SIZE`). -/
def trim_run (block_offset : Nat) (block_count : Nat) (prog : Progress) :
    List DevOp × Progress × Except FunError Unit :=
  let offset := block_offset * 512
  let count := block_offset * 512
  ([DevOp.trim offset count true], progress_report prog (block_count / 256), .ok ())

/-- Character at index `i` of a C string: the NUL terminator (and anything
past it) reads as the zero character. -/
def cstrIndex (s : String) (i : Nat) : Char :=
  s.data.getD i (Char.ofNat 0)

/-- `fat_rm_run` (`src/functions.c:596`): the must-exist bit is
`fctx->argv[0][6] == '!'` — character 6 of the invoked action's own name, the
first character after the base name — and is passed to `fatfs_rm`. -/
def fat_rm_run (fat : FatState) (name : String) (path : String) (prog : Progress) :
    FatState × Progress × Except FunError Unit :=
  let file_must_exist := cstrIndex name 6 == '!'
  match fatfs_rm fat path file_must_exist with
  | .error e => (fat, prog, .error e)
  | .ok fat2 => (fat2, progress_report prog 1, .ok ())

/-- `fat_setlabel_compute_progress` (`src/functions.c:664`): one arbitrary
unit. -/
def fat_setlabel_compute_progress (prog : Progress) : Progress :=
  { prog with total_units := prog.total_units + 1 }

/-- `fat_setlabel_run` (`src/functions.c:669`): calls `fatfs_setlabel`
(outcome passed in as `setlabel_rc`) and returns — without any
`progress_report` call, unlike every sibling bookkeeping action. -/
def fat_setlabel_run (setlabel_rc : Except FunError Unit) (prog : Progress) :
    Progress × Except FunError Unit :=
  match setlabel_rc with
  | .error e => (prog, .error e)
  | .ok _ => (prog, .ok ())

/-- `fat_touch_run` (`src/functions.c:692`) restricted to its progress
behavior: on success it reports one unit. -/
def fat_touch_run (touch_rc : Except FunError Unit) (prog : Progress) :
    Progress × Except FunError Unit :=
  match touch_rc with
  | .error e => (prog, .error e)
  | .ok _ => (progress_report prog 1, .ok ())

/-- `fat_attrib_run` (`src/functions.c:437`): when `fatfs_attrib` fails
(negative return) it returns `1` — not `-1` like every other action. -/
def fat_attrib_run_rc (fatfs_attrib_rc : Int) : Int :=
  if fatfs_attrib_rc < 0 then 1 else 0

/-- The abort test of `fun_apply_funlist` (`src/functions.c:193`): the
interpreter walks the funlist and stops, returning -1, at the first invoked
phase function whose return value is negative; each list element here is the
return code of one action's phase function. -/
def fun_apply_funlist : List Int → Int
  | [] => 0
  | rc :: rest => if rc < 0 then -1 else fun_apply_funlist rest

/-- One registry entry's two apply-time phases, as `fun_apply_funlist` drives
them over the same funlist: the compute_progress pass then the run pass. -/
structure FunPhases where
  compute : Progress → Progress
  run : Progress → Progress × Except FunError Unit

/-- The compute_progress pass over a funlist. -/
def funlist_compute (l : List FunPhases) (prog : Progress) : Progress :=
  l.foldl (fun p a => a.compute p) prog

/-- The run pass over a funlist, aborting at the first action whose run
reports failure. -/
def funlist_run : List FunPhases → Progress → Progress × Except FunError Unit
  | [], prog => (prog, .ok ())
  | a :: rest, prog =>
    match a.run prog with
    | (p2, .ok _) => funlist_run rest p2
    | (p2, .error e) => (p2, .error e)

/-- The forwarding loop of `execute_run` never executes its body: `fread` with
item size 512 and item count 1 returns at most 1, so the guard `== 512` is
always false. -/
theorem execute_loop_eq_nil (s : List Nat) : execute_loop s = [] := by
  unfold execute_loop
  have hne : (fread512 s).1 ≠ 512 := by
    simp only [fread512]
    split <;> omega
  simp [hne]

/-- Concrete stand-in digest function used to instantiate witnesses: maps every
byte sequence to 64 copies of `d`. -/
def demoHash : List Nat → String := fun _ => String.mk (List.replicate 64 'd')

/-- A 64-character stored digest that `demoHash` never produces. -/
def stored64 : String := String.mk (List.replicate 64 'e')

/-- A concrete command string for witnesses. -/
def demoCmd : String := "echo hello"

/-- Concrete non-empty stdout (`hello` plus newline) for the `execute`
counterexample. -/
def demoStdout : List Nat := [104, 101, 108, 108, 111, 10]

/-- A `popen`-for-read model whose command produces `demoStdout`. -/
def demoSpawnRead : String → Option (List Nat) := fun _ => some demoStdout

/-- The funlist consisting of a single successful `fat_setlabel` invocation. -/
def setlabelFunlist : List FunPhases :=
  [⟨fat_setlabel_compute_progress, fat_setlabel_run (.ok ())⟩]

/-- C2: `trim_run` hands `block_cache_trim` a byte range whose offset **and**
count are both `block_offset * 512`; at `trim(1, 3)` it trims 512 bytes instead
of the `block_count * 512 = 1536` the claim requires. -/
theorem claim_C2_trim_range :
    (∀ (bo bc : Nat) (prog : Progress),
      (trim_run bo bc prog).1 = [DevOp.trim (bo * 512) (bo * 512) true]) ∧
    (trim_run 1 3 ⟨0, 0⟩).1 = [DevOp.trim 512 512 true] ∧
    DevOp.trim 512 512 true ≠ DevOp.trim 512 1536 true := by
  exact ⟨fun bo bc prog => rfl, by decide, by decide⟩

/-- C3: with the unsafe flag false, `path_write_run`, `pipe_write_run` and
`execute_run` each fail with the safety error before performing any host side
effect: no file is opened, no subprocess is spawned, nothing is written. -/
theorem claim_C3_safety_gate :
    (∀ (hfn : List Nat → String) (writeFn : Int → List Nat → Int)
        (openFn : String → Int) (res? : Option Resource) (path : String)
        (stream : List Chunk) (prog : Progress),
      path_write_run hfn writeFn openFn false res? path stream prog =
        ⟨[], prog, stream, .error .requiresUnsafe⟩) ∧
    (∀ (hfn : List Nat → String) (writeFn : Int → List Nat → Int)
        (popenFn : String → Option Int) (res? : Option Resource) (cmd : String)
        (stream : List Chunk) (prog : Progress),
      pipe_write_run hfn writeFn popenFn false res? cmd stream prog =
        ⟨[], prog, stream, .error .requiresUnsafe⟩) ∧
    (∀ (popenFn : String → Option (List Nat)) (cmd : String),
      execute_run false popenFn cmd = ([], .error .requiresUnsafe)) :=
  ⟨fun _ _ _ _ _ _ _ => rfl, fun _ _ _ _ _ _ _ => rfl, fun _ _ => rfl⟩

/-- C4: a failing `fat_attrib` returns 1, which `fun_apply_funlist` does not
recognize as failure (it aborts only on negative returns): a funlist containing
a failed `fat_attrib` completes as a success, while an action returning -1
aborts the walk immediately. -/
theorem claim_C4_fat_attrib_failure_unrecognized :
    fat_attrib_run_rc (-1) = 1 ∧
    fun_apply_funlist [fat_attrib_run_rc (-1)] = 0 ∧
    fun_apply_funlist [fat_attrib_run_rc (-1), 0] = 0 ∧
    (∀ rest : List Int, fun_apply_funlist (-1 :: rest) = -1) := by
  refine ⟨by decide, by decide, by decide, fun rest => ?_⟩
  simp [fun_apply_funlist]

/-- C5: over the funlist `[fat_setlabel]` the compute pass accumulates one
total unit, the run pass completes successfully, yet the reported progress
stays 0 — `fat_setlabel_run` never calls `progress_report`, so at normal task
end the reported count falls short of the total. -/
theorem claim_C5_setlabel_progress_shortfall :
    funlist_compute setlabelFunlist ⟨0, 0⟩ = ⟨1, 0⟩ ∧
    funlist_run setlabelFunlist ⟨1, 0⟩ = (⟨1, 0⟩, .ok ()) ∧
    (Progress.mk 1 0).current ≠ (Progress.mk 1 0).total_units :=
  ⟨rfl, rfl, by decide⟩

/-- C7: the stdout-forwarding loop of `execute_run` never runs (`fread` with
item count 1 can never return 512), so even for a command with non-empty
stdout no chunk reaches the diagnostic channel: the only host effect is the
spawn itself. -/
theorem claim_C7_execute_forwards_nothing :
    (∀ s : List Nat, execute_loop s = []) ∧
    demoSpawnRead demoCmd = some demoStdout ∧ demoStdout ≠ [] ∧
    execute_run true demoSpawnRead demoCmd = ([HostOp.spawn demoCmd], .ok ()) := by
  refine ⟨execute_loop_eq_nil, rfl, by decide, ?_⟩
  simp [execute_run, demoSpawnRead, execute_loop_eq_nil]

/-- The data runs are a subset of all runs, so `data_size ≤ total size`. -/
theorem sparse_data_le_size : ∀ runs : List Nat, sparse_file_data_size runs ≤ sparse_file_size runs
  | [] => Nat.le_refl 0
  | [d] => by simp [sparse_file_data_size, sparse_file_size]
  | d :: h :: rest => by
    have ih := sparse_data_le_size rest
    simp only [sparse_file_size, List.sum_cons] at *
    simp only [sparse_file_data_size]
    omega

/-- Removing every entry named `path` leaves a volume in which `path` is
absent. -/
theorem fatHas_filter (fat : FatState) (path : String) :
    fatHas (fat.filter (fun e => e.1 != path)) path = false := by
  simp only [fatHas, List.any_eq_false, List.mem_filter]
  intro e he
  have : (e.1 != path) = true := he.2
  simp only [bne_iff_ne, ne_eq] at this
  simp [this]

/-- A `write` model for witnesses that always reports full delivery. -/
def demoWrite : Int → List Nat → Int := fun _ d => (d.length : Int)

/-- An `open` model for witnesses that always fails with -1. -/
def demoOpenFail : String → Int := fun _ => -1

/-- An `open` model for witnesses that returns the legitimate descriptor 0. -/
def demoOpenZero : String → Int := fun _ => 0

/-- A `popen`-for-write model for witnesses that yields descriptor 3. -/
def demoPopen : String → Option Int := fun _ => some 3

/-- A name for a file that is absent from the witnesses' FAT volume. -/
def demoMissing : String := "MISSING.TXT"

/-- Resource title used by witnesses. -/
def demoTitle : String := "zero.bin"

/-- Destination path used by witnesses. -/
def demoDest : String := "EMPTY.TXT"

/-- C8: `fat_rm_run` recovers the must-exist bit from character 6 of the
invoked name — the first character past the base name `fat_rm` — and passes it
to the FAT deletion: on a missing file the plain spelling succeeds and the `!`
spelling fails. -/
theorem claim_C8_fat_rm_variant (fat : FatState) (path : String) (prog : Progress)
    (hmiss : fatHas fat path = false) :
    cstrIndex ("fat_rm") 6 ≠ '!' ∧ cstrIndex ("fat_rm!") 6 = '!' ∧
    (fat_rm_run fat ("fat_rm") path prog).2.2 = .ok () ∧
    (fat_rm_run fat ("fat_rm!") path prog).2.2 = .error .fatError := by
  have h1 : (cstrIndex ("fat_rm") 6 == '!') = false := by decide
  have h2 : (cstrIndex ("fat_rm!") 6 == '!') = true := by decide
  refine ⟨by decide, by decide, ?_, ?_⟩
  · simp [fat_rm_run, h1, fatfs_rm, hmiss]
  · simp [fat_rm_run, h2, fatfs_rm, hmiss]

/-- Witness for C8 at the empty volume and a concrete missing path. -/
theorem claim_C8_witness :
    fatHas [] demoMissing = false ∧
    (cstrIndex ("fat_rm") 6 ≠ '!' ∧ cstrIndex ("fat_rm!") 6 = '!' ∧
      (fat_rm_run [] ("fat_rm") demoMissing ⟨1, 0⟩).2.2 = .ok () ∧
      (fat_rm_run [] ("fat_rm!") demoMissing ⟨1, 0⟩).2.2 = .error .fatError) :=
  ⟨by decide, claim_C8_fat_rm_variant [] demoMissing ⟨1, 0⟩ (by decide)⟩

/-- C9: on a resource whose total size is zero, `fat_write_run` takes the
zero-length branch: the truncating removal followed by `fatfs_touch` leaves an
empty file at the destination, exactly one progress unit is reported, the run
succeeds, and the result is the same for every digest function (no hash
verification happens); `fat_write_compute_progress` accounts exactly one total
unit for such a resource. -/
theorem claim_C9_fat_write_zero_length (hfn : List Nat → String) (title h dest : String)
    (runs : List Nat) (bo : Nat) (stream : List Chunk) (fat : FatState) (prog : Progress)
    (hlen : h.length = 64) (hzero : sparse_file_size runs = 0) :
    (fat_write_run hfn (some ⟨title, some h, runs⟩) bo dest stream fat prog).rc = .ok () ∧
    (dest, ([] : List Nat)) ∈
      (fat_write_run hfn (some ⟨title, some h, runs⟩) bo dest stream fat prog).fat ∧
    (fat_write_run hfn (some ⟨title, some h, runs⟩) bo dest stream fat prog).prog =
      ⟨prog.total_units, prog.current + 1⟩ ∧
    (fat_write_compute_progress runs prog).total_units = prog.total_units + 1 := by
  have hdata : sparse_file_data_size runs = 0 := by
    have := sparse_data_le_size runs
    omega
  have hcompute : (fat_write_compute_progress runs prog).total_units = prog.total_units + 1 := by
    simp [fat_write_compute_progress, hdata]
  by_cases hhas : fatHas fat dest
  · have hrm : fatfs_rm fat dest false = .ok (fat.filter (fun e => e.1 != dest)) := by
      simp [fatfs_rm, hhas]
    have htouch : fatfs_touch (fat.filter (fun e => e.1 != dest)) dest =
        (dest, []) :: fat.filter (fun e => e.1 != dest) := by
      simp [fatfs_touch, fatHas_filter]
    simp [fat_write_run, hlen, hrm, hzero, htouch, progress_report, hcompute]
  · have hrm : fatfs_rm fat dest false = .ok fat := by
      simp [fatfs_rm, hhas]
    have htouch : fatfs_touch fat dest = (dest, []) :: fat := by
      simp [fatfs_touch, hhas]
    simp [fat_write_run, hlen, hrm, hzero, htouch, progress_report, hcompute]

/-- Witness for C9: a zero-run resource with a 64-character stored digest,
applied to the empty volume. -/
theorem claim_C9_witness :
    stored64.length = 64 ∧ sparse_file_size [] = 0 ∧
    ((fat_write_run demoHash (some ⟨demoTitle, some stored64, []⟩) 0 demoDest [] [] ⟨1, 0⟩).rc =
        .ok () ∧
      (demoDest, ([] : List Nat)) ∈
        (fat_write_run demoHash (some ⟨demoTitle, some stored64, []⟩) 0 demoDest [] [] ⟨1, 0⟩).fat ∧
      (fat_write_run demoHash (some ⟨demoTitle, some stored64, []⟩) 0 demoDest [] [] ⟨1, 0⟩).prog =
        ⟨1, 0 + 1⟩ ∧
      (fat_write_compute_progress [] ⟨1, 0⟩).total_units = 1 + 1) :=
  ⟨by decide, by decide,
    claim_C9_fat_write_zero_length demoHash demoTitle stored64 demoDest [] 0 [] [] ⟨1, 0⟩
      (by decide) (by decide)⟩

/-- Closed form of `raw_write_run` on a found resource with a 64-character
stored digest and a well-formed stream: every chunk is written (plus the
trailing-hole zero block), all pulled bytes are reported as progress, the
stream is fully consumed, and the return code is decided afterwards — length
check first, digest check second. -/
theorem raw_write_run_eq (hfn : List Nat → String) (title h : String) (runs : List Nat)
    (bo : Nat) (stream : List Chunk) (prog : Progress)
    (hlen : h.length = 64) (hwf : ∀ c ∈ stream, c.data ≠ []) :
    raw_write_run hfn (some ⟨title, some h, runs⟩) bo stream prog =
      ⟨(stream.map fun c => DevOp.pwrite (bo * 512 + c.offset) c.data true) ++
         (if sparse_ending_hole_size runs > 0 then
            [DevOp.pwrite
              (bo * 512 + (sparse_file_size runs - min 512 (sparse_ending_hole_size runs)))
              (List.replicate (min 512 (sparse_ending_hole_size runs)) 0) true]
          else []),
       progress_report prog (chunksLen stream), [],
       if chunksLen stream ≠ sparse_file_data_size runs then
         (if chunksLen stream = 0 then .error .wroteNothing else .error .wrongLength)
       else if hfn (chunksBytes stream) ≠ h then .error .hashMismatch else .ok ()⟩ := by
  have hp := raw_write_pump_eq (bo * 512) stream hwf
  by_cases hne : chunksLen stream = sparse_file_data_size runs
  · by_cases hh : hfn (chunksBytes stream) = h
    · simp [raw_write_run, hlen, hp, hne, hh]
    · simp [raw_write_run, hlen, hp, hne, hh]
  · by_cases h0 : chunksLen stream = 0
    · rw [h0] at hne
      simp [raw_write_run, hlen, hp, hne, h0]
    · simp [raw_write_run, hlen, hp, hne, h0]

/-- C6: `raw_write_run` fails whenever the bytes pulled from the stream differ
from the resource's `data_size`; the stream is fully consumed by a run, so a
second `raw_write` in the same on-resource block (nonzero `data_size`) pulls
zero bytes and fails with the double-invocation diagnostic. -/
theorem claim_C6_raw_write_single_pass (hfn : List Nat → String) (title h : String)
    (runs : List Nat) (bo bo2 : Nat) (stream : List Chunk) (prog prog2 : Progress)
    (hlen : h.length = 64) (hwf : ∀ c ∈ stream, c.data ≠ []) :
    (chunksLen stream ≠ sparse_file_data_size runs →
      (raw_write_run hfn (some ⟨title, some h, runs⟩) bo stream prog).rc ≠ .ok ()) ∧
    (raw_write_run hfn (some ⟨title, some h, runs⟩) bo stream prog).leftover = [] ∧
    (sparse_file_data_size runs ≠ 0 →
      (raw_write_run hfn (some ⟨title, some h, runs⟩) bo2
        (raw_write_run hfn (some ⟨title, some h, runs⟩) bo stream prog).leftover
        prog2).rc = .error .wroteNothing) := by
  have heq := raw_write_run_eq hfn title h runs bo stream prog hlen hwf
  refine ⟨?_, ?_, ?_⟩
  · intro hne
    rw [heq]
    simp only [ne_eq, hne, not_false_eq_true, if_true]
    split <;> simp
  · rw [heq]
  · intro hnz
    have hleft : (raw_write_run hfn (some ⟨title, some h, runs⟩) bo stream prog).leftover = [] := by
      rw [heq]
    have heq2 := raw_write_run_eq hfn title h runs bo2 [] prog2 hlen (by simp)
    rw [hleft, heq2]
    simp [chunksLen, Ne.symm hnz]

/-- Witness for C6: one 1-byte chunk against a declared 2-byte data run. -/
theorem claim_C6_witness :
    stored64.length = 64 ∧ (∀ c ∈ [Chunk.mk 0 [7]], c.data ≠ []) ∧
    ((chunksLen [Chunk.mk 0 [7]] ≠ sparse_file_data_size [2] →
        (raw_write_run demoHash (some ⟨demoTitle, some stored64, [2]⟩) 0 [Chunk.mk 0 [7]]
          ⟨2, 0⟩).rc ≠ .ok ()) ∧
      (raw_write_run demoHash (some ⟨demoTitle, some stored64, [2]⟩) 0 [Chunk.mk 0 [7]]
        ⟨2, 0⟩).leftover = [] ∧
      (sparse_file_data_size [2] ≠ 0 →
        (raw_write_run demoHash (some ⟨demoTitle, some stored64, [2]⟩) 1
          (raw_write_run demoHash (some ⟨demoTitle, some stored64, [2]⟩) 0 [Chunk.mk 0 [7]]
            ⟨2, 0⟩).leftover ⟨2, 0⟩).rc = .error .wroteNothing)) :=
  ⟨by decide, by decide,
    claim_C6_raw_write_single_pass demoHash demoTitle stored64 [2] 0 1 [Chunk.mk 0 [7]]
      ⟨2, 0⟩ ⟨2, 0⟩ (by decide) (by decide)⟩

/-- The `fd_write_run` stream loop either succeeds or stops at a failed
`write`. -/
theorem fd_write_pump_rc (writeFn : Int → List Nat → Int) (fd : Int) :
    ∀ s : List Chunk, (fd_write_pump writeFn fd s).rc = .ok () ∨
      (fd_write_pump writeFn fd s).rc = .error .writeFailed
  | [] => Or.inl rfl
  | c :: rest => by
    simp only [fd_write_pump]
    split
    · exact Or.inl rfl
    · split
      · exact Or.inr rfl
      · simpa using fd_write_pump_rc writeFn fd rest

/-- `fd_write_run` never produces the open-failure diagnostic: its failures
are a missing resource, a bad stored digest, a failed `write`, or a digest
mismatch. -/
theorem fd_write_rc_ne_cantOpen (hfn : List Nat → String) (writeFn : Int → List Nat → Int)
    (cmd : String) (res? : Option Resource) (fd : Int) (stream : List Chunk)
    (prog : Progress) :
    (fd_write_run hfn writeFn cmd res? fd stream prog).rc ≠ .error .cantOpen := by
  rcases res? with _ | res
  · simp [fd_write_run]
  rcases hres : res.hash? with _ | eh
  · simp [fd_write_run, hres]
  by_cases hlen : eh.length = 64
  · rcases fd_write_pump_rc writeFn fd stream with hrc | hrc
    · simp only [fd_write_run, hres, hlen, hrc, ne_eq, not_true_eq_false, if_false]
      split
      · split
        · simp
        · split <;> simp
      · split <;> simp
    · simp [fd_write_run, hres, hlen, hrc]
  · simp [fd_write_run, hres, hlen]

/-- C10: `path_write_run` tests the freshly opened descriptor with
`if(!output_fd)`, so only descriptor 0 counts as an open failure: when `open`
returns -1 the run does not report the failure and delegates to `fd_write_run`
on descriptor -1 (which can never produce the open-failure error), while a
legitimately returned descriptor 0 is misreported as an open failure. -/
theorem claim_C10_path_write_open_check (hfn : List Nat → String)
    (writeFn : Int → List Nat → Int) (openFn : String → Int) (res? : Option Resource)
    (path : String) (stream : List Chunk) (prog : Progress)
    (hopen : openFn path = -1) :
    path_write_run hfn writeFn openFn true res? path stream prog =
      ⟨HostOp.openFile path ::
         (fd_write_run hfn writeFn ("path_write") res? (-1) stream prog).ops,
       (fd_write_run hfn writeFn ("path_write") res? (-1) stream prog).prog,
       (fd_write_run hfn writeFn ("path_write") res? (-1) stream prog).leftover,
       (fd_write_run hfn writeFn ("path_write") res? (-1) stream prog).rc⟩ ∧
    (fd_write_run hfn writeFn ("path_write") res? (-1) stream prog).rc ≠ .error .cantOpen ∧
    (∀ openFn2 : String → Int, openFn2 path = 0 →
      (path_write_run hfn writeFn openFn2 true res? path stream prog).rc =
        .error .cantOpen) := by
  refine ⟨?_, fd_write_rc_ne_cantOpen hfn writeFn ("path_write") res? (-1) stream prog, ?_⟩
  · simp [path_write_run, hopen]
  · intro openFn2 h0
    simp [path_write_run, h0]

/-- The result of the truncating removal `fatfs_rm(... false)` that
`fat_write_run` performs: delete the file when present, otherwise leave the
volume unchanged. -/
def fatRmQuiet (fat : FatState) (path : String) : FatState :=
  if fatHas fat path then fat.filter (fun e => e.1 != path) else fat

/-- With `file_must_exist = false` the FAT removal always succeeds. -/
theorem fatfs_rm_false (fat : FatState) (path : String) :
    fatfs_rm fat path false = .ok (fatRmQuiet fat path) := by
  by_cases hh : fatHas fat path <;> simp [fatfs_rm, fatRmQuiet, hh]

/-- An invalid stored digest option (absent, or not 64 characters) makes
`raw_write_run` fail with the invalid-hash error. -/
theorem raw_write_run_invalidHash (hfn : List Nat → String) (title : String)
    (hs : Option String) (runs : List Nat) (bo : Nat) (stream : List Chunk)
    (prog : Progress) (hv : validHash hs = false) :
    (raw_write_run hfn (some ⟨title, hs, runs⟩) bo stream prog).rc = .error .invalidHash := by
  cases hs with
  | none => simp [raw_write_run]
  | some h =>
    have hne : ¬h.length = 64 := by simpa [validHash] using hv
    simp [raw_write_run, hne]

/-- An invalid stored digest option makes `fat_write_run` fail with the
invalid-hash error. -/
theorem fat_write_run_invalidHash (hfn : List Nat → String) (title : String)
    (hs : Option String) (runs : List Nat) (bo : Nat) (dest : String)
    (stream : List Chunk) (fat : FatState) (prog : Progress) (hv : validHash hs = false) :
    (fat_write_run hfn (some ⟨title, hs, runs⟩) bo dest stream fat prog).rc =
      .error .invalidHash := by
  cases hs with
  | none => simp [fat_write_run]
  | some h =>
    have hne : ¬h.length = 64 := by simpa [validHash] using hv
    simp [fat_write_run, hne]

/-- An invalid stored digest option makes `fd_write_run` fail with the
invalid-hash error. -/
theorem fd_write_run_invalidHash (hfn : List Nat → String) (writeFn : Int → List Nat → Int)
    (cmd : String) (title : String) (hs : Option String) (runs : List Nat) (fd : Int)
    (stream : List Chunk) (prog : Progress) (hv : validHash hs = false) :
    (fd_write_run hfn writeFn cmd (some ⟨title, hs, runs⟩) fd stream prog).rc =
      .error .invalidHash := by
  cases hs with
  | none => simp [fd_write_run]
  | some h =>
    have hne : ¬h.length = 64 := by simpa [validHash] using hv
    simp [fd_write_run, hne]

/-- Closed form of `fat_write_run` on a found resource of nonzero total size
with a 64-character stored digest and a well-formed stream: the destination is
truncated, every chunk is streamed into it (plus the trailing-hole grow), all
pulled bytes are reported as progress, and the return code is decided
afterwards — length check first, digest check second. -/
theorem fat_write_run_eq (hfn : List Nat → String) (title h : String) (runs : List Nat)
    (bo : Nat) (dest : String) (stream : List Chunk) (fat : FatState) (prog : Progress)
    (hlen : h.length = 64) (hnz : ¬sparse_file_size runs = 0)
    (hwf : ∀ c ∈ stream, c.data ≠ []) :
    fat_write_run hfn (some ⟨title, some h, runs⟩) bo dest stream fat prog =
      ⟨(if sparse_ending_hole_size runs ≠ 0 then
          fatfs_pwrite (fatAfterChunks dest (fatRmQuiet fat dest) stream) dest
            (sparse_file_size runs) []
        else fatAfterChunks dest (fatRmQuiet fat dest) stream),
       progress_report prog (chunksLen stream), [],
       if chunksLen stream ≠ sparse_file_data_size runs then
         (if chunksLen stream = 0 then .error .wroteNothing else .error .wrongLength)
       else if hfn (chunksBytes stream) ≠ h then .error .hashMismatch else .ok ()⟩ := by
  have hp := fat_write_pump_eq dest (fatRmQuiet fat dest) stream hwf
  by_cases hne : chunksLen stream = sparse_file_data_size runs
  · by_cases hh : hfn (chunksBytes stream) = h
    · simp [fat_write_run, hlen, fatfs_rm_false, hnz, hp, hne, hh]
    · simp [fat_write_run, hlen, fatfs_rm_false, hnz, hp, hne, hh]
  · by_cases h0 : chunksLen stream = 0
    · rw [h0] at hne
      simp [fat_write_run, hlen, fatfs_rm_false, hnz, hp, hne, h0]
    · simp [fat_write_run, hlen, fatfs_rm_false, hnz, hp, hne, h0]

/-- On a well-formed stream with a never-failing `write`, the `fd_write_run`
loop writes every chunk in order, pulls every byte and hashes the
concatenation. -/
theorem fd_write_pump_eq (writeFn : Int → List Nat → Int) (fd : Int) (s : List Chunk)
    (hwf : ∀ c ∈ s, c.data ≠ []) (hw : ∀ d : List Nat, 0 ≤ writeFn fd d) :
    fd_write_pump writeFn fd s =
      ⟨s.map (fun c => HostOp.fdWrite fd c.data), (s.map (fun c => writeFn fd c.data)).sum,
       chunksLen s, chunksBytes s, [], .ok ()⟩ := by
  induction s with
  | nil => simp [fd_write_pump, chunksLen, chunksBytes]
  | cons c rest ih =>
    have hc : c.data ≠ [] := hwf c (List.mem_cons_self c rest)
    have hlen : c.data.length ≠ 0 := by simpa [List.length_eq_zero] using hc
    have hnn : ¬writeFn fd c.data < 0 := not_lt.mpr (hw c.data)
    simp [fd_write_pump, hlen, hnn, ih (fun x hx => hwf x (List.mem_cons_of_mem c hx)),
      chunksLen, chunksBytes]

/-- Closed form of `fd_write_run` on a found resource with a 64-character
stored digest, a well-formed stream and a never-failing `write`: every chunk is
written to the descriptor (plus up to one zero block into a trailing hole), all
pulled bytes are reported as progress, and only then is the digest compared —
no length check is performed at all. -/
theorem fd_write_run_eq (hfn : List Nat → String) (writeFn : Int → List Nat → Int)
    (cmd : String) (title h : String) (runs : List Nat) (fd : Int) (stream : List Chunk)
    (prog : Progress) (hlen : h.length = 64) (hwf : ∀ c ∈ stream, c.data ≠ [])
    (hw : ∀ d : List Nat, 0 ≤ writeFn fd d) :
    fd_write_run hfn writeFn cmd (some ⟨title, some h, runs⟩) fd stream prog =
      ⟨(stream.map fun c => HostOp.fdWrite fd c.data) ++
         (if sparse_ending_hole_size runs > 0 then
            [HostOp.fdWrite fd (List.replicate (min 512 (sparse_ending_hole_size runs)) 0)]
          else []),
       progress_report prog (chunksLen stream), [],
       if hfn (chunksBytes stream) ≠ h then .error .hashMismatch else .ok ()⟩ := by
  have hp := fd_write_pump_eq writeFn fd stream hwf hw
  by_cases hhole : sparse_ending_hole_size runs > 0
  · have hnn : ¬writeFn fd (List.replicate (min 512 (sparse_ending_hole_size runs)) 0) < 0 :=
      not_lt.mpr (hw _)
    by_cases hh : hfn (chunksBytes stream) = h
    · simp [fd_write_run, hlen, hp, hhole, hnn, hh]
    · simp [fd_write_run, hlen, hp, hhole, hnn, hh]
  · by_cases hh : hfn (chunksBytes stream) = h
    · simp [fd_write_run, hlen, hp, hhole, hh]
    · simp [fd_write_run, hlen, hp, hhole, hh]

/-- C1 (amended): every data-carrying FILE-context action — `raw_write`,
`fat_write`, and the `fd_write_run` sink shared by `path_write` and
`pipe_write` — fails when the resource section's `blake2b-256` option is
missing or not 64 characters; and a digest mismatch is a fatal error issued
only after every pulled byte (and the trailing-hole zero block) has been
delivered to the sink.  Exception forced by the code: `fat_write` on a
resource of total size zero returns success without any digest comparison, so
the mismatch guarantee holds for `fat_write` only on resources of nonzero
total size. -/
theorem claim_C1_hash_discipline :
    (∀ (hfn : List Nat → String) (title : String) (hs : Option String) (runs : List Nat)
        (bo : Nat) (stream : List Chunk) (prog : Progress), validHash hs = false →
      (raw_write_run hfn (some ⟨title, hs, runs⟩) bo stream prog).rc = .error .invalidHash) ∧
    (∀ (hfn : List Nat → String) (title : String) (hs : Option String) (runs : List Nat)
        (bo : Nat) (dest : String) (stream : List Chunk) (fat : FatState) (prog : Progress),
        validHash hs = false →
      (fat_write_run hfn (some ⟨title, hs, runs⟩) bo dest stream fat prog).rc =
        .error .invalidHash) ∧
    (∀ (hfn : List Nat → String) (writeFn : Int → List Nat → Int) (cmd title : String)
        (hs : Option String) (runs : List Nat) (fd : Int) (stream : List Chunk)
        (prog : Progress), validHash hs = false →
      (fd_write_run hfn writeFn cmd (some ⟨title, hs, runs⟩) fd stream prog).rc =
        .error .invalidHash) ∧
    (∀ (hfn : List Nat → String) (writeFn : Int → List Nat → Int) (openFn : String → Int)
        (locked : Bool) (title : String) (hs : Option String) (runs : List Nat)
        (path : String) (stream : List Chunk) (prog : Progress), validHash hs = false →
      (path_write_run hfn writeFn openFn locked (some ⟨title, hs, runs⟩) path stream
        prog).rc ≠ .ok ()) ∧
    (∀ (hfn : List Nat → String) (writeFn : Int → List Nat → Int)
        (popenFn : String → Option Int) (locked : Bool) (title : String)
        (hs : Option String) (runs : List Nat) (cmd : String) (stream : List Chunk)
        (prog : Progress), validHash hs = false →
      (pipe_write_run hfn writeFn popenFn locked (some ⟨title, hs, runs⟩) cmd stream
        prog).rc ≠ .ok ()) ∧
    (∀ (hfn : List Nat → String) (title h : String) (runs : List Nat) (bo : Nat)
        (stream : List Chunk) (prog : Progress), h.length = 64 →
        (∀ c ∈ stream, c.data ≠ []) → chunksLen stream = sparse_file_data_size runs →
        hfn (chunksBytes stream) ≠ h →
      raw_write_run hfn (some ⟨title, some h, runs⟩) bo stream prog =
        ⟨(stream.map fun c => DevOp.pwrite (bo * 512 + c.offset) c.data true) ++
           (if sparse_ending_hole_size runs > 0 then
              [DevOp.pwrite
                (bo * 512 + (sparse_file_size runs - min 512 (sparse_ending_hole_size runs)))
                (List.replicate (min 512 (sparse_ending_hole_size runs)) 0) true]
            else []),
         progress_report prog (chunksLen stream), [], .error .hashMismatch⟩) ∧
    (∀ (hfn : List Nat → String) (title h : String) (runs : List Nat) (bo : Nat)
        (dest : String) (stream : List Chunk) (fat : FatState) (prog : Progress),
        h.length = 64 → ¬sparse_file_size runs = 0 → (∀ c ∈ stream, c.data ≠ []) →
        chunksLen stream = sparse_file_data_size runs → hfn (chunksBytes stream) ≠ h →
      fat_write_run hfn (some ⟨title, some h, runs⟩) bo dest stream fat prog =
        ⟨(if sparse_ending_hole_size runs ≠ 0 then
            fatfs_pwrite (fatAfterChunks dest (fatRmQuiet fat dest) stream) dest
              (sparse_file_size runs) []
          else fatAfterChunks dest (fatRmQuiet fat dest) stream),
         progress_report prog (chunksLen stream), [], .error .hashMismatch⟩) ∧
    (∀ (hfn : List Nat → String) (writeFn : Int → List Nat → Int) (cmd title h : String)
        (runs : List Nat) (fd : Int) (stream : List Chunk) (prog : Progress),
        h.length = 64 → (∀ c ∈ stream, c.data ≠ []) →
        (∀ d : List Nat, 0 ≤ writeFn fd d) → hfn (chunksBytes stream) ≠ h →
      fd_write_run hfn writeFn cmd (some ⟨title, some h, runs⟩) fd stream prog =
        ⟨(stream.map fun c => HostOp.fdWrite fd c.data) ++
           (if sparse_ending_hole_size runs > 0 then
              [HostOp.fdWrite fd (List.replicate (min 512 (sparse_ending_hole_size runs)) 0)]
            else []),
         progress_report prog (chunksLen stream), [], .error .hashMismatch⟩) ∧
    (∀ (hfn : List Nat → String) (writeFn : Int → List Nat → Int) (openFn : String → Int)
        (res? : Option Resource) (path : String) (stream : List Chunk) (prog : Progress),
        openFn path ≠ 0 →
      path_write_run hfn writeFn openFn true res? path stream prog =
        ⟨HostOp.openFile path ::
           (fd_write_run hfn writeFn ("path_write") res? (openFn path) stream prog).ops,
         (fd_write_run hfn writeFn ("path_write") res? (openFn path) stream prog).prog,
         (fd_write_run hfn writeFn ("path_write") res? (openFn path) stream prog).leftover,
         (fd_write_run hfn writeFn ("path_write") res? (openFn path) stream prog).rc⟩) ∧
    (∀ (hfn : List Nat → String) (writeFn : Int → List Nat → Int)
        (popenFn : String → Option Int) (res? : Option Resource) (cmd : String)
        (stream : List Chunk) (prog : Progress) (fd : Int),
        popenFn cmd = some fd → fd ≠ 0 →
      pipe_write_run hfn writeFn popenFn true res? cmd stream prog =
        ⟨HostOp.spawn cmd ::
           (fd_write_run hfn writeFn ("pipe_write") res? fd stream prog).ops,
         (fd_write_run hfn writeFn ("pipe_write") res? fd stream prog).prog,
         (fd_write_run hfn writeFn ("pipe_write") res? fd stream prog).leftover,
         (fd_write_run hfn writeFn ("pipe_write") res? fd stream prog).rc⟩) := by
  refine ⟨raw_write_run_invalidHash, fat_write_run_invalidHash, fd_write_run_invalidHash,
    ?_, ?_, ?_, ?_, ?_, ?_, ?_⟩
  · intro hfn writeFn openFn locked title hs runs path stream prog hv
    cases locked with
    | false => simp [path_write_run]
    | true =>
      by_cases hfd : openFn path = 0
      · simp [path_write_run, hfd]
      · simp [path_write_run, hfd,
          fd_write_run_invalidHash hfn writeFn ("path_write") title hs runs (openFn path)
            stream prog hv]
  · intro hfn writeFn popenFn locked title hs runs cmd stream prog hv
    cases locked with
    | false => simp [pipe_write_run]
    | true =>
      cases hpo : popenFn cmd with
      | none => simp [pipe_write_run, hpo]
      | some fd =>
        by_cases hfd : fd = 0
        · simp [pipe_write_run, hpo, hfd]
        · simp [pipe_write_run, hpo, hfd,
            fd_write_run_invalidHash hfn writeFn ("pipe_write") title hs runs fd stream
              prog hv]
  · intro hfn title h runs bo stream prog hlen hwf hpull hmis
    rw [raw_write_run_eq hfn title h runs bo stream prog hlen hwf]
    simp [hpull, hmis]
  · intro hfn title h runs bo dest stream fat prog hlen hnz hwf hpull hmis
    rw [fat_write_run_eq hfn title h runs bo dest stream fat prog hlen hnz hwf]
    simp [hpull, hmis]
  · intro hfn writeFn cmd title h runs fd stream prog hlen hwf hw hmis
    rw [fd_write_run_eq hfn writeFn cmd title h runs fd stream prog hlen hwf hw]
    simp [hmis]
  · intro hfn writeFn openFn res? path stream prog hfd
    simp [path_write_run, hfd]
  · intro hfn writeFn popenFn res? cmd stream prog fd hpo hfd
    simp [pipe_write_run, hpo, hfd]

/-- Counterexample to C1 as stated: a zero-total-size resource whose stored
64-character digest differs from the digest of the (empty) byte stream is
accepted by `fat_write_run` — the mismatch is silently ignored rather than
reported. -/
theorem claim_C1_counterexample :
    stored64.length = 64 ∧
    demoHash (chunksBytes ([] : List Chunk)) ≠ stored64 ∧
    (fat_write_run demoHash (some ⟨demoTitle, some stored64, []⟩) 0 demoDest [] []
      ⟨1, 0⟩).rc = .ok () := by
  refine ⟨by decide, by decide, by decide⟩

/-- Witness for C1 exercising the invalid-hash conjunct and the three
mismatch-after-delivery conjuncts at concrete inputs. -/
theorem claim_C1_witness :
    (validHash none = false ∧
      (raw_write_run demoHash (some ⟨demoTitle, none, [1]⟩) 0 [Chunk.mk 0 [7]]
        ⟨1, 0⟩).rc = .error .invalidHash) ∧
    (stored64.length = 64 ∧ (∀ c ∈ [Chunk.mk 0 [7]], c.data ≠ []) ∧
      chunksLen [Chunk.mk 0 [7]] = sparse_file_data_size [1] ∧
      demoHash (chunksBytes [Chunk.mk 0 [7]]) ≠ stored64 ∧
      raw_write_run demoHash (some ⟨demoTitle, some stored64, [1]⟩) 0 [Chunk.mk 0 [7]]
          ⟨1, 0⟩ =
        ⟨([Chunk.mk 0 [7]].map fun c => DevOp.pwrite (0 * 512 + c.offset) c.data true) ++
           (if sparse_ending_hole_size [1] > 0 then
              [DevOp.pwrite
                (0 * 512 + (sparse_file_size [1] - min 512 (sparse_ending_hole_size [1])))
                (List.replicate (min 512 (sparse_ending_hole_size [1])) 0) true]
            else []),
         progress_report ⟨1, 0⟩ (chunksLen [Chunk.mk 0 [7]]), [], .error .hashMismatch⟩) ∧
    (fat_write_run demoHash (some ⟨demoTitle, some stored64, [1]⟩) 0 demoDest
        [Chunk.mk 0 [7]] [] ⟨1, 0⟩ =
      ⟨(if sparse_ending_hole_size [1] ≠ 0 then
          fatfs_pwrite (fatAfterChunks demoDest (fatRmQuiet [] demoDest) [Chunk.mk 0 [7]])
            demoDest (sparse_file_size [1]) []
        else fatAfterChunks demoDest (fatRmQuiet [] demoDest) [Chunk.mk 0 [7]]),
       progress_report ⟨1, 0⟩ (chunksLen [Chunk.mk 0 [7]]), [], .error .hashMismatch⟩) ∧
    (fd_write_run demoHash demoWrite demoCmd
        (some ⟨demoTitle, some stored64, [1]⟩) 3 [Chunk.mk 0 [7]] ⟨1, 0⟩ =
      ⟨([Chunk.mk 0 [7]].map fun c => HostOp.fdWrite 3 c.data) ++
         (if sparse_ending_hole_size [1] > 0 then
            [HostOp.fdWrite 3 (List.replicate (min 512 (sparse_ending_hole_size [1])) 0)]
          else []),
       progress_report ⟨1, 0⟩ (chunksLen [Chunk.mk 0 [7]]), [], .error .hashMismatch⟩) :=
  ⟨⟨by decide,
      claim_C1_hash_discipline.1 demoHash demoTitle none [1] 0 [Chunk.mk 0 [7]] ⟨1, 0⟩
        (by decide)⟩,
    ⟨by decide, by decide, by decide, by decide,
      claim_C1_hash_discipline.2.2.2.2.2.1 demoHash demoTitle stored64 [1] 0
        [Chunk.mk 0 [7]] ⟨1, 0⟩ (by decide) (by decide) (by decide) (by decide)⟩,
    claim_C1_hash_discipline.2.2.2.2.2.2.1 demoHash demoTitle stored64 [1] 0 demoDest
      [Chunk.mk 0 [7]] [] ⟨1, 0⟩ (by decide) (by decide) (by decide) (by decide) (by decide),
    claim_C1_hash_discipline.2.2.2.2.2.2.2.1 demoHash demoWrite demoCmd
      demoTitle stored64 [1] 3 [Chunk.mk 0 [7]] ⟨1, 0⟩ (by decide) (by decide)
      (fun d => Int.natCast_nonneg d.length) (by decide)⟩

/-- Witness for C10: `open` returning -1 at a concrete invocation, with the
delegation to `fd_write_run` on descriptor -1 and the misreporting of a
legitimate descriptor 0. -/
theorem claim_C10_witness :
    demoOpenFail demoDest = -1 ∧
    (path_write_run demoHash demoWrite demoOpenFail true
        (some ⟨demoTitle, some stored64, [1]⟩) demoDest [Chunk.mk 0 [7]] ⟨1, 0⟩ =
      ⟨HostOp.openFile demoDest ::
         (fd_write_run demoHash demoWrite ("path_write")
           (some ⟨demoTitle, some stored64, [1]⟩) (-1) [Chunk.mk 0 [7]] ⟨1, 0⟩).ops,
       (fd_write_run demoHash demoWrite ("path_write")
         (some ⟨demoTitle, some stored64, [1]⟩) (-1) [Chunk.mk 0 [7]] ⟨1, 0⟩).prog,
       (fd_write_run demoHash demoWrite ("path_write")
         (some ⟨demoTitle, some stored64, [1]⟩) (-1) [Chunk.mk 0 [7]] ⟨1, 0⟩).leftover,
       (fd_write_run demoHash demoWrite ("path_write")
         (some ⟨demoTitle, some stored64, [1]⟩) (-1) [Chunk.mk 0 [7]] ⟨1, 0⟩).rc⟩) ∧
    (fd_write_run demoHash demoWrite ("path_write") (some ⟨demoTitle, some stored64, [1]⟩)
        (-1) [Chunk.mk 0 [7]] ⟨1, 0⟩).rc ≠ .error .cantOpen ∧
    (path_write_run demoHash demoWrite demoOpenZero true
        (some ⟨demoTitle, some stored64, [1]⟩) demoDest [Chunk.mk 0 [7]] ⟨1, 0⟩).rc =
      .error .cantOpen := by
  have h := claim_C10_path_write_open_check demoHash demoWrite demoOpenFail
    (some ⟨demoTitle, some stored64, [1]⟩) demoDest [Chunk.mk 0 [7]] ⟨1, 0⟩ rfl
  exact ⟨rfl, h.1, h.2.1, h.2.2 demoOpenZero rfl⟩

/-- Witness for C2 at the failing input `trim(1, 3)`. -/
theorem claim_C2_witness : (trim_run 1 3 ⟨0, 0⟩).1 = [DevOp.trim 512 512 true] :=
  claim_C2_trim_range.2.1

/-- Witness for C3 at concrete inputs: the gated `path_write` run errors with
no host side effect. -/
theorem claim_C3_witness :
    path_write_run demoHash demoWrite demoOpenFail false none demoDest [] ⟨0, 0⟩ =
      ⟨[], ⟨0, 0⟩, [], .error .requiresUnsafe⟩ :=
  claim_C3_safety_gate.1 demoHash demoWrite demoOpenFail none demoDest [] ⟨0, 0⟩

/-- Witness for C4: the funlist containing only the failed `fat_attrib`
completes as a success. -/
theorem claim_C4_witness : fun_apply_funlist [fat_attrib_run_rc (-1)] = 0 :=
  claim_C4_fat_attrib_failure_unrecognized.2.1

/-- Witness for C5: the compute pass over `[fat_setlabel]` yields one total
unit and no reported units. -/
theorem claim_C5_witness : funlist_compute setlabelFunlist ⟨0, 0⟩ = ⟨1, 0⟩ :=
  claim_C5_setlabel_progress_shortfall.1

/-- Witness for C7: the concrete `execute` run forwards nothing despite a
non-empty stdout. -/
theorem claim_C7_witness :
    execute_run true demoSpawnRead demoCmd = ([HostOp.spawn demoCmd], .ok ()) :=
  claim_C7_execute_forwards_nothing.2.2.2

end Fwup
